/-
  Verification of the session/report core of `time_keeper_v2.py`.

  Shallow embedding notes:
  * Python `datetime` objects (second precision, naive local time) are modelled by the
    `DateTime` structure below; `datetime.isoformat(timespec="seconds")` and
    `datetime.fromisoformat` are modelled on the `YYYY-MM-DDTHH:MM:SS` grammar, which is
    exactly the format this program ever produces (`fromisoformat` accepts further
    grammars for hand-edited files; those extra shapes are not needed by any claim, and
    a string outside the modelled grammar parses to `none`, matching a raised
    `ValueError` for the strings the claims exercise).
  * Subtraction and comparison of datetimes go through `DateTime.toSeconds`
    (proleptic-Gregorian second count from 0001-01-01T00:00:00, the same calendar
    arithmetic CPython's `datetime` performs); `now - timedelta(days=d)` becomes
    `toSeconds now - d * 86400`.
  * Python `round(x, 2)` is modelled as exact round-half-to-even on rationals
    (`pyRound2`); binary floating-point representation artifacts are out of scope.
  * `datetime.now()` is an effect: the current time is passed to `clock_in`/`clock_out`
    explicitly as a `DateTime` argument.
  * A Python function that can raise on the modelled path returns `Option` (`none` =
    exception); informational `print` branches return the state unchanged.
  * JSON persistence is modelled at the value level: the file system is an association
    list from paths to stored JSON documents (`StoredLog`, whose `Option` fields model
    presence/absence of the `"project"`/`"users"` keys); `json.dump`/`json.load`
    text round-tripping is assumed faithful.
-/
import Mathlib

/-! ## Datetimes -/

/-- A calendar datetime at second precision, the model of a Python naive `datetime`
produced by `datetime.now()` (fields as in the constructor order year, month, day,
hour, minute, second). -/
structure DateTime where
  year : Nat
  month : Nat
  day : Nat
  hour : Nat
  minute : Nat
  second : Nat
deriving DecidableEq, Repr

/-- Gregorian leap-year rule, as implemented by Python's `calendar`/`datetime`. -/
def isLeap (y : Nat) : Bool :=
  y % 4 == 0 && (y % 100 != 0 || y % 400 == 0)

/-- Number of days in a month (1–12) of a given year. -/
def daysInMonth (y m : Nat) : Nat :=
  if m = 2 then (if isLeap y then 29 else 28)
  else if m = 4 ∨ m = 6 ∨ m = 9 ∨ m = 11 then 30
  else 31

/-- Days in year `y` that precede the first day of month `m` (1–12). -/
def daysBeforeMonth (y m : Nat) : Nat :=
  let base := [0, 0, 31, 59, 90, 120, 151, 181, 212, 243, 273, 304, 334].getD m 0
  if 2 < m ∧ isLeap y then base + 1 else base

/-- The field ranges `datetime` enforces (`MINYEAR = 1`, `MAXYEAR = 9999`, real
calendar dates, 24h clock). `fromisoformat` raises outside these ranges. -/
def DateTime.valid (dt : DateTime) : Prop :=
  1 ≤ dt.year ∧ dt.year ≤ 9999 ∧ 1 ≤ dt.month ∧ dt.month ≤ 12 ∧
  1 ≤ dt.day ∧ dt.day ≤ daysInMonth dt.year dt.month ∧
  dt.hour ≤ 23 ∧ dt.minute ≤ 59 ∧ dt.second ≤ 59

instance (dt : DateTime) : Decidable dt.valid := by
  unfold DateTime.valid
  exact inferInstance

/-- Seconds elapsed from 0001-01-01T00:00:00 (proleptic Gregorian), the model of
`datetime` ordering and subtraction: `(a - b).total_seconds() = toSeconds a -
toSeconds b` and `a >= b` iff `toSeconds a >= toSeconds b` for valid datetimes. -/
def DateTime.toSeconds (dt : DateTime) : Int :=
  let y := dt.year - 1
  let days : Nat :=
    365 * y + y / 4 + y / 400 + daysBeforeMonth dt.year dt.month + (dt.day - 1) - y / 100
  ((days * 86400 + dt.hour * 3600 + dt.minute * 60 + dt.second : Nat) : Int)

/-- Two decimal digits `n/10`, `n%10` (for `n < 100`), as in `%02d` formatting. -/
def pad2 (n : Nat) : List Char :=
  [Nat.digitChar (n / 10), Nat.digitChar (n % 10)]

/-- Four decimal digits (for `n < 10000`), as in `%04d` formatting. -/
def pad4 (n : Nat) : List Char :=
  pad2 (n / 100) ++ pad2 (n % 100)

/-- Model of `datetime.isoformat(timespec="seconds")`: `YYYY-MM-DDTHH:MM:SS`. -/
def DateTime.isoformat (dt : DateTime) : String :=
  ⟨pad4 dt.year ++ '-' :: pad2 dt.month ++ '-' :: pad2 dt.day ++
    'T' :: pad2 dt.hour ++ ':' :: pad2 dt.minute ++ ':' :: pad2 dt.second⟩

/-- Numeric value of a decimal digit character. -/
def digitVal (c : Char) : Nat := c.toNat - 48

/-- Model of `datetime.fromisoformat` on character lists, restricted to the
`YYYY-MM-DDTHH:MM:SS` grammar this program emits; `none` models a raised
`ValueError`. -/
def fromIsoChars (l : List Char) : Option DateTime :=
  match l with
  | [y1, y2, y3, y4, a1, m1, m2, a2, d1, d2, a3, h1, h2, a4, n1, n2, a5, e1, e2] =>
    if a1 = '-' ∧ a2 = '-' ∧ a3 = 'T' ∧ a4 = ':' ∧ a5 = ':' ∧
        y1.isDigit ∧ y2.isDigit ∧ y3.isDigit ∧ y4.isDigit ∧
        m1.isDigit ∧ m2.isDigit ∧ d1.isDigit ∧ d2.isDigit ∧
        h1.isDigit ∧ h2.isDigit ∧ n1.isDigit ∧ n2.isDigit ∧
        e1.isDigit ∧ e2.isDigit then
      let dt : DateTime :=
        ⟨digitVal y1 * 1000 + digitVal y2 * 100 + digitVal y3 * 10 + digitVal y4,
         digitVal m1 * 10 + digitVal m2,
         digitVal d1 * 10 + digitVal d2,
         digitVal h1 * 10 + digitVal h2,
         digitVal n1 * 10 + digitVal n2,
         digitVal e1 * 10 + digitVal e2⟩
      if dt.valid then some dt else none
    else none
  | _ => none

/-- Model of `datetime.fromisoformat` on strings. -/
def fromisoformat (s : String) : Option DateTime :=
  fromIsoChars s.data

/-! ## Rounding -/

/-- Round-half-to-even on rationals, the rounding rule of Python's builtin `round`. -/
def roundHalfEven (q : ℚ) : Int :=
  let f : Int := ⌊q⌋
  let r : ℚ := q - (f : ℚ)
  if r < 1 / 2 then f
  else if 1 / 2 < r then f + 1
  else if f % 2 = 0 then f else f + 1

/-- Model of Python `round(q, 2)` (exact, on rationals). -/
def pyRound2 (q : ℚ) : ℚ :=
  ((roundHalfEven (q * 100) : Int) : ℚ) / 100

/-! ## Data model (section 3 of the spec; JSON schema of the log file) -/

/-- One recorded session, the dictionaries held in a user's `"sessions"` list.
`start`/`end` are `Option` because `time_report` reads them with `dict.get` (a
hand-edited file may omit them); sessions appended by `clock_out` have both set. -/
structure Session where
  start : Option String
  «end» : Option String
  duration_minutes : ℚ
deriving DecidableEq, Repr

/-- One user's record: `{"sessions": [...], "active_session": str|null}`. -/
structure UserRecord where
  sessions : List Session
  active_session : Option String
deriving DecidableEq, Repr

/-- The `"users"` mapping, a JSON object modelled as an insertion-ordered
association list of username to record. -/
abbrev Users := List (String × UserRecord)

/-- The in-memory project log: `{"project": str, "users": {...}}`. -/
structure ProjectLog where
  project : String
  users : Users
deriving DecidableEq, Repr

/-! ## Persistence (`save_data`, `load_data`, `ensure_user`) -/

/-- A stored JSON document for a project log, with each top-level key possibly
absent (`none`), as `load_data` must tolerate. -/
structure StoredLog where
  project? : Option String
  users? : Option Users
deriving DecidableEq, Repr

/-- The file system seen by the persistence layer: an association of paths to
stored documents. -/
abbrev FileSys := List (String × StoredLog)

/-- Contents at a path (`none` = `log_file_path.exists()` is false). -/
def fsRead (fs : FileSys) (p : String) : Option StoredLog :=
  match fs with
  | [] => none
  | (q, w) :: rest => if q = p then some w else fsRead rest p

/-- Full-file overwrite at a path. -/
def fsWrite (fs : FileSys) (p : String) (v : StoredLog) : FileSys :=
  match fs with
  | [] => [(p, v)]
  | (q, w) :: rest => if q = p then (p, v) :: rest else (q, w) :: fsWrite rest p v

/-- `save_data(data_dictionary, log_file_path)`: serialize the log (both keys
present) and overwrite the file at the path. -/
def save_data (data_dictionary : ProjectLog) (fs : FileSys) (log_file_path : String) :
    FileSys :=
  fsWrite fs log_file_path ⟨some data_dictionary.project, some data_dictionary.users⟩

/-- `load_data(log_file_path, project_name)`: if the file exists, take its parsed
contents, backfilling a missing `"project"` key with `project_name` and a missing
`"users"` key with `{}`; otherwise a fresh `{project: project_name, users: {}}`. -/
def load_data (fs : FileSys) (log_file_path : String) (project_name : String) :
    ProjectLog :=
  match fsRead fs log_file_path with
  | some loaded_data =>
    ⟨loaded_data.project?.getD project_name, loaded_data.users?.getD []⟩
  | none => ⟨project_name, []⟩

/-- Whether `username in project_data["users"]`. -/
def hasUser (users : Users) (username : String) : Bool :=
  users.any (fun kv => kv.1 = username)

/-- `ensure_user(project_data, username)`: insert `{sessions: [], active_session:
null}` for a username not yet present (a new dict key is appended in insertion
order); the `"users"`-key backfill guard of the Python code is vacuous on the
typed `ProjectLog`, where the field is always present. -/
def ensure_user (project_data : ProjectLog) (username : String) : ProjectLog :=
  if hasUser project_data.users username then project_data
  else ⟨project_data.project, project_data.users ++ [(username, ⟨[], none⟩)]⟩

/-! ## Core operations (`clock_in`, `clock_out`, `show_summary`, `time_report`) -/

/-- `clock_in(user_data)` at current time `now`: no-op (with a printed message)
when already clocked in, otherwise set `active_session` to the current ISO
timestamp. -/
def clock_in (now : DateTime) (user_data : UserRecord) : UserRecord :=
  match user_data.active_session with
  | some _ => user_data
  | none => ⟨user_data.sessions, some now.isoformat⟩

/-- `clock_out(user_data)` at current time `now`: no-op (with a printed message)
when not clocked in; otherwise compute `end`, parse both timestamps (`none`
models the `ValueError` Python raises on an unparseable `active_session`),
append the new session and clear `active_session`. -/
def clock_out (now : DateTime) (user_data : UserRecord) : Option UserRecord :=
  match user_data.active_session with
  | none => some user_data
  | some start =>
    let «end» := now.isoformat
    match fromisoformat start, fromisoformat «end» with
    | some start_dt, some end_dt =>
      let duration_minutes : ℚ :=
        pyRound2 (((end_dt.toSeconds - start_dt.toSeconds : Int) : ℚ) / 60)
      some ⟨user_data.sessions ++ [⟨some start, some «end», duration_minutes⟩], none⟩
    | _, _ => none

/-- `sum(s["duration_minutes"] for s in sessions)`. -/
def totalMinutes (sessions : List Session) : ℚ :=
  (sessions.map (fun s => s.duration_minutes)).sum

/-- The figures `show_summary` prints. -/
structure Summary where
  count : Nat
  total_minutes : ℚ
  total_hours : ℚ
  last_5_sessions : List Session
deriving DecidableEq, Repr

/-- `show_summary(user_data, username)`: `none` models the early "No sessions
logged yet" return; otherwise the printed count, exact sum of the stored
`duration_minutes` fields, `round(total/60, 2)`, and `sessions[-5:]`. -/
def show_summary (user_data : UserRecord) : Option Summary :=
  let sessions := user_data.sessions
  if sessions = [] then none
  else
    let total_minutes := totalMinutes sessions
    some ⟨sessions.length, total_minutes, pyRound2 (total_minutes / 60),
      sessions.drop (sessions.length - 5)⟩

/-- The end-timestamp string `time_report` parses for one session:
`session.get("end") or session.get("start")` — Python's `or` falls back to
`start` both when `end` is absent and when it is the (falsy) empty string; the
result may itself be `None`. -/
def reportEndStr (session : Session) : Option String :=
  match session.«end» with
  | some e => if e = "" then session.start else some e
  | none => session.start

/-- The filter of `time_report`'s gathering loop: keep a session iff its end
string is present and parseable and the parsed datetime is `>= cutoff`
(`fromisoformat(None)`/unparseable strings hit the `except: continue`). -/
def qualifies (cutoffSec : Int) (session : Session) : Bool :=
  match reportEndStr session with
  | none => false
  | some str =>
    match fromisoformat str with
    | none => false
    | some end_dt => decide (cutoffSec ≤ end_dt.toSeconds)

/-- The figures `time_report` prints. -/
structure Report where
  count : Nat
  total_minutes : ℚ
  total_hours : ℚ
  sessions : List Session
deriving DecidableEq, Repr

/-- `time_report(user_data, username, days)` at current time `now`: `none` models
both early returns ("No sessions logged yet" and "No sessions in the last N
days"); `cutoff = now - timedelta(days=days)`; the gathering loop is
`List.filter` of `qualifies` (it appends, in storage order, exactly the
sessions passing the filter). -/
def time_report (now : DateTime) (days : Int) (user_data : UserRecord) : Option Report :=
  if user_data.sessions = [] then none
  else
    let cutoffSec : Int := now.toSeconds - days * 86400
    let filtered := user_data.sessions.filter (qualifies cutoffSec)
    if filtered = [] then none
    else some ⟨filtered.length, totalMinutes filtered,
      pyRound2 (totalMinutes filtered / 60), filtered⟩

/-- Membership of a session in the report actually produced (no report, nothing
included). -/
def includedInReport (now : DateTime) (days : Int) (user_data : UserRecord)
    (s : Session) : Prop :=
  ∃ r, time_report now days user_data = some r ∧ s ∈ r.sessions

/-! ## `slugify` and the file name -/

/-- The character whitelist of `slugify`. -/
def allowedChars : List Char := "abcdefghijklmnopqrstuvwxyz0123456789_-".data

/-- Python `str.strip()` on a character list. -/
def stripChars (l : List Char) : List Char :=
  ((l.dropWhile Char.isWhitespace).reverse.dropWhile Char.isWhitespace).reverse

/-- `slugify(project_name)`: strip, lowercase, spaces to underscores, keep only
whitelisted characters, and fall back to `"silly_goose"` when nothing is left.
(`str.lower()` is modelled on ASCII letters; any character whose lowercase form
is outside the whitelist is dropped by the filter either way.) -/
def slugify (project_name : String) : String :=
  let formatted_name :=
    (stripChars project_name.data).map (fun c => Char.toLower c)
      |>.map (fun c => if c = ' ' then '_' else c)
  let safe_name := formatted_name.filter (fun c => decide (c ∈ allowedChars))
  if safe_name = [] then "silly_goose" else ⟨safe_name⟩


/-! ## Parsing round-trip -/

theorem pad2_digit_facts : ∀ n < 100,
    (Nat.digitChar (n / 10)).isDigit = true ∧ (Nat.digitChar (n % 10)).isDigit = true ∧
    digitVal (Nat.digitChar (n / 10)) = n / 10 ∧
    digitVal (Nat.digitChar (n % 10)) = n % 10 := by decide

theorem daysInMonth_le (y m : Nat) : daysInMonth y m ≤ 31 := by
  unfold daysInMonth
  split
  · split <;> omega
  · split <;> omega

theorem fromisoformat_isoformat (dt : DateTime) (h : dt.valid) :
    fromisoformat dt.isoformat = some dt := by
  obtain ⟨y, mo, d, hh, mi, ss⟩ := dt
  simp only [DateTime.valid] at h
  obtain ⟨hy1, hy2, hm1, hm2, hd1, hd2, hh2, hmi2, hss2⟩ := h
  have hdle : d ≤ 31 := le_trans hd2 (daysInMonth_le y mo)
  have hyc : y / 100 < 100 := by omega
  have hyr : y % 100 < 100 := by omega
  have hmo : mo < 100 := by omega
  have hd : d < 100 := by omega
  have hhh : hh < 100 := by omega
  have hmi : mi < 100 := by omega
  have hss : ss < 100 := by omega
  obtain ⟨q1, q2, v1, v2⟩ := pad2_digit_facts (y / 100) hyc
  obtain ⟨q3, q4, v3, v4⟩ := pad2_digit_facts (y % 100) hyr
  obtain ⟨q5, q6, v5, v6⟩ := pad2_digit_facts mo hmo
  obtain ⟨q7, q8, v7, v8⟩ := pad2_digit_facts d hd
  obtain ⟨q9, q10, v9, v10⟩ := pad2_digit_facts hh hhh
  obtain ⟨q11, q12, v11, v12⟩ := pad2_digit_facts mi hmi
  obtain ⟨q13, q14, v13, v14⟩ := pad2_digit_facts ss hss
  unfold fromisoformat DateTime.isoformat pad4 pad2
  simp only [List.cons_append, List.nil_append]
  simp only [fromIsoChars]
  rw [if_pos ⟨True.intro, True.intro, True.intro, True.intro, True.intro,
    q1, q2, q3, q4, q5, q6, q7, q8, q9, q10, q11, q12, q13, q14⟩]
  have ey : y / 100 / 10 * 1000 + y / 100 % 10 * 100 + y % 100 / 10 * 10 + y % 100 % 10 = y := by
    omega
  have em : mo / 10 * 10 + mo % 10 = mo := by omega
  have ed : d / 10 * 10 + d % 10 = d := by omega
  have eh : hh / 10 * 10 + hh % 10 = hh := by omega
  have en : mi / 10 * 10 + mi % 10 = mi := by omega
  have es : ss / 10 * 10 + ss % 10 = ss := by omega
  simp only [v1, v2, v3, v4, v5, v6, v7, v8, v9, v10, v11, v12, v13, v14, ey, em, ed, eh, en, es]
  rw [if_pos (show DateTime.valid ⟨y, mo, d, hh, mi, ss⟩ from
    ⟨hy1, hy2, hm1, hm2, hd1, hd2, hh2, hmi2, hss2⟩)]

/-! ## Clock-in/clock-out claims -/

/-- Claim C1: for every user record whose `active_session` is a parseable timestamp,
`clock_out` computes `end` as the current timestamp, sets `duration_minutes =
round((end - start) in seconds / 60, 2)`, appends exactly one new session
`{start, end, duration_minutes}` at the end of the sessions list, and clears
`active_session`; hence a `clock_in` followed by a `clock_out` produces exactly one
new session and leaves `active_session` null. -/
theorem clock_out_appends_one_session (now : DateTime) (user : UserRecord)
    (startStr : String) (start_dt : DateTime)
    (hnow : now.valid) (hact : user.active_session = some startStr)
    (hparse : fromisoformat startStr = some start_dt) :
    clock_out now user = some
      ⟨user.sessions ++
        [⟨some startStr, some now.isoformat,
          pyRound2 (((now.toSeconds - start_dt.toSeconds : Int) : ℚ) / 60)⟩], none⟩
    ∧ ∀ (t1 t2 : DateTime) (v : UserRecord), t1.valid → t2.valid →
        v.active_session = none →
        clock_out t2 (clock_in t1 v) = some
          ⟨v.sessions ++
            [⟨some t1.isoformat, some t2.isoformat,
              pyRound2 (((t2.toSeconds - t1.toSeconds : Int) : ℚ) / 60)⟩], none⟩ := by
  constructor
  · unfold clock_out
    rw [hact]
    simp only [hparse, fromisoformat_isoformat now hnow]
  · intro t1 t2 v h1 h2 hv
    unfold clock_in
    rw [hv]
    unfold clock_out
    simp only [fromisoformat_isoformat t1 h1, fromisoformat_isoformat t2 h2]

/-- Witness for C1: a concrete clock-out of a session started at 12:00:00 and ended
at 13:00:30 records a single 60.5-minute session and clears `active_session`. -/
theorem clock_out_appends_one_session_witness :
    clock_out ⟨2026, 10, 12, 13, 0, 30⟩ ⟨[], some "2026-10-12T12:00:00"⟩ =
      some ⟨[⟨some "2026-10-12T12:00:00", some "2026-10-12T13:00:30", 121 / 2⟩], none⟩ := by
  rw [(clock_out_appends_one_session ⟨2026, 10, 12, 13, 0, 30⟩
    ⟨[], some "2026-10-12T12:00:00"⟩ "2026-10-12T12:00:00" ⟨2026, 10, 12, 12, 0, 0⟩
    (by decide) rfl (by decide)).1]
  have e0 : (DateTime.toSeconds ⟨2026, 10, 12, 13, 0, 30⟩ -
      DateTime.toSeconds ⟨2026, 10, 12, 12, 0, 0⟩ : Int) = 3630 := by decide
  have e1 : DateTime.isoformat ⟨2026, 10, 12, 13, 0, 30⟩ = "2026-10-12T13:00:30" := by
    decide
  rw [e0, e1]
  norm_num [pyRound2, roundHalfEven]

/-- Claim C4: `clock_in` on a record already clocked in, and `clock_out` on a record
not clocked in, both return the record completely unchanged (these paths print an
informational message; no exception is modelled, so `clock_out` returns `some`). -/
theorem repeated_clock_ops_noop :
    (∀ (now : DateTime) (u : UserRecord) (s : String),
      u.active_session = some s → clock_in now u = u) ∧
    (∀ (now : DateTime) (u : UserRecord),
      u.active_session = none → clock_out now u = some u) := by
  constructor
  · intro now u s h
    unfold clock_in
    rw [h]
  · intro now u h
    unfold clock_out
    rw [h]

/-- Witness for C4 at a concrete record for each no-op path. -/
theorem repeated_clock_ops_noop_witness :
    clock_in ⟨2026, 1, 1, 0, 0, 0⟩ ⟨[], some "2026-01-01T00:00:00"⟩ =
      ⟨[], some "2026-01-01T00:00:00"⟩ ∧
    clock_out ⟨2026, 1, 1, 0, 0, 0⟩ ⟨[], none⟩ = some ⟨[], none⟩ :=
  ⟨repeated_clock_ops_noop.1 ⟨2026, 1, 1, 0, 0, 0⟩ ⟨[], some "2026-01-01T00:00:00"⟩
      "2026-01-01T00:00:00" rfl,
    repeated_clock_ops_noop.2 ⟨2026, 1, 1, 0, 0, 0⟩ ⟨[], none⟩ rfl⟩

/-- Claim C5: every operation preserves the invariants — at most one open session
(`clock_in` is rejected, returning the record unchanged, while `active_session` is
non-null), and the sessions list is append-only: `clock_in` never touches it, and
whenever `clock_out` returns a record its sessions list is the old list with (at
most) one entry appended, so existing entries are never reordered, edited or
deleted. (`show_status`, `show_summary` and `time_report` are read-only by
construction: they are functions of the record that return printed figures and no
record.) -/
theorem record_invariants_preserved :
    (∀ (now : DateTime) (u : UserRecord) (s : String),
      u.active_session = some s → clock_in now u = u) ∧
    (∀ (now : DateTime) (u : UserRecord), (clock_in now u).sessions = u.sessions) ∧
    (∀ (now : DateTime) (u u' : UserRecord), clock_out now u = some u' →
      ∃ appended, u'.sessions = u.sessions ++ appended) := by
  refine ⟨fun now u s h => ?_, fun now u => ?_, fun now u u' h => ?_⟩
  · unfold clock_in
    rw [h]
  · unfold clock_in
    cases u.active_session <;> rfl
  · cases hact : u.active_session with
    | none =>
      simp only [clock_out, hact] at h
      injection h with h2
      subst h2
      exact ⟨[], by simp⟩
    | some start =>
      simp only [clock_out, hact] at h
      cases hs : fromisoformat start with
      | none => simp [hs] at h
      | some start_dt =>
        cases he : fromisoformat (DateTime.isoformat now) with
        | none => simp [hs, he] at h
        | some end_dt =>
          simp only [hs, he] at h
          injection h with h2
          subst h2
          exact ⟨_, rfl⟩

/-- Witness for C5: the invariants at a concrete rejected clock-in, a concrete
clock-in, and a concrete clock-out. -/
theorem record_invariants_preserved_witness :
    clock_in ⟨2026, 1, 2, 0, 0, 0⟩ ⟨[], some "2026-01-01T00:00:00"⟩ =
      ⟨[], some "2026-01-01T00:00:00"⟩ ∧
    (clock_in ⟨2026, 1, 2, 0, 0, 0⟩ ⟨[], none⟩).sessions = [] ∧
    ∃ appended,
      (⟨[⟨some "2026-01-01T00:00:00", some "2026-01-01T01:00:00", 60⟩], none⟩ :
          UserRecord).sessions =
        [⟨some "2026-01-01T00:00:00", some "2026-01-01T01:00:00", 60⟩] ++ appended :=
  ⟨record_invariants_preserved.1 ⟨2026, 1, 2, 0, 0, 0⟩ ⟨[], some "2026-01-01T00:00:00"⟩
      "2026-01-01T00:00:00" rfl,
    record_invariants_preserved.2.1 ⟨2026, 1, 2, 0, 0, 0⟩ ⟨[], none⟩,
    record_invariants_preserved.2.2 ⟨2026, 1, 2, 0, 0, 0⟩
      ⟨[⟨some "2026-01-01T00:00:00", some "2026-01-01T01:00:00", 60⟩], none⟩
      ⟨[⟨some "2026-01-01T00:00:00", some "2026-01-01T01:00:00", 60⟩], none⟩
      rfl⟩

/-! ## Summary claim -/

/-- Claim C3: for every user record with a non-empty sessions list, the summary's
`total_minutes` is exactly the sum of the stored per-session `duration_minutes`
fields — it is a function of those fields alone, not re-derived from the raw
`start`/`end` timestamps — and `total_hours = round(total_minutes / 60, 2)`. -/
theorem summary_totals_stored (u : UserRecord) (h : u.sessions ≠ []) :
    show_summary u = some ⟨u.sessions.length,
      (u.sessions.map (fun s => s.duration_minutes)).sum,
      pyRound2 ((u.sessions.map (fun s => s.duration_minutes)).sum / 60),
      u.sessions.drop (u.sessions.length - 5)⟩ ∧
    ∀ (v : UserRecord),
      v.sessions.map (fun s => s.duration_minutes) =
        u.sessions.map (fun s => s.duration_minutes) →
      totalMinutes v.sessions = totalMinutes u.sessions := by
  constructor
  · unfold show_summary
    rw [if_neg h]
    rfl
  · intro v hv
    unfold totalMinutes
    rw [hv]

/-- Witness for C3: two stored sessions of 10 and 0.5 minutes summarize to 10.5
total minutes and round(10.5/60, 2) = 0.18 total hours. -/
theorem summary_totals_stored_witness :
    show_summary ⟨[⟨some "a", some "b", 10⟩, ⟨none, none, 1 / 2⟩], none⟩ =
      some ⟨2, 21 / 2, 9 / 50,
        [⟨some "a", some "b", 10⟩, ⟨none, none, 1 / 2⟩]⟩ := by
  rw [(summary_totals_stored ⟨[⟨some "a", some "b", 10⟩, ⟨none, none, 1 / 2⟩], none⟩
    (by simp)).1]
  simp only [List.map_cons, List.map_nil, List.sum_cons, List.sum_nil, List.length_cons,
    List.length_nil, List.drop, Option.some.injEq]
  norm_num [pyRound2, roundHalfEven]

/-! ## Slugify claim -/

/-- The character class `[a-z0-9_-]` of the claimed regex `^[a-z0-9_-]+$`. -/
def isSlugChar (c : Char) : Bool :=
  decide (('a' ≤ c ∧ c ≤ 'z') ∨ ('0' ≤ c ∧ c ≤ '9') ∨ c = '_' ∨ c = '-')

theorem allowed_isSlugChar : ∀ c ∈ allowedChars, isSlugChar c = true := by decide

theorem filter_allowed_all (l : List Char) :
    (l.filter (fun c => decide (c ∈ allowedChars))).all isSlugChar = true := by
  rw [List.all_eq_true]
  intro c hc
  exact allowed_isSlugChar c (of_decide_eq_true (List.mem_filter.1 hc).2)

/-- Claim C8: `slugify` lowercases, replaces spaces with underscores, retains only
`[a-z0-9_-]`, and falls back to the fixed placeholder `"silly_goose"` when nothing
is left, so its output always matches `^[a-z0-9_-]+$` and is non-empty. -/
theorem slugify_safe_nonempty (s : String) :
    slugify s ≠ "" ∧ (slugify s).data.all isSlugChar = true := by
  unfold slugify
  simp only []
  by_cases h :
      (((stripChars s.data).map (fun c => Char.toLower c)).map
        (fun c => if c = ' ' then '_' else c)).filter
        (fun c => decide (c ∈ allowedChars)) = []
  · rw [if_pos h]
    exact ⟨by decide, by decide⟩
  · rw [if_neg h]
    refine ⟨fun heq => h ?_, filter_allowed_all _⟩
    exact congrArg String.data heq

/-! ## Persistence claims -/

theorem fsRead_fsWrite (fs : FileSys) (p : String) (v : StoredLog) :
    fsRead (fsWrite fs p v) p = some v := by
  induction fs with
  | nil => simp [fsWrite, fsRead]
  | cons kv rest ih =>
    obtain ⟨q, w⟩ := kv
    by_cases h : q = p
    · simp [fsWrite, fsRead, h]
    · simp [fsWrite, fsRead, h, ih]

/-- Claim C6: saving an in-memory project log and loading it back from the same
path returns a log equal to the original, for every path and file-system state. -/
theorem save_then_load_roundtrip (log : ProjectLog) (fs : FileSys)
    (path name : String) :
    load_data (save_data log fs path) path name = log := by
  unfold load_data save_data
  rw [fsRead_fsWrite]
  rfl

/-- Claim C7: `load_data` returns the parsed file contents with a missing
`project` key backfilled to the given project name and a missing `users` key
backfilled to an empty mapping; a non-existent file yields a fresh
`{project: project_name, users: {}}`; in particular a file missing `users`
loads with `users = {}`. -/
theorem load_backfills_missing_keys :
    (∀ (fs : FileSys) (path name : String) (st : StoredLog),
      fsRead fs path = some st →
      load_data fs path name = ⟨st.project?.getD name, st.users?.getD []⟩) ∧
    (∀ (fs : FileSys) (path name : String),
      fsRead fs path = none → load_data fs path name = ⟨name, []⟩) ∧
    (∀ (fs : FileSys) (path name : String) (st : StoredLog),
      fsRead fs path = some st → st.users? = none →
      (load_data fs path name).users = []) := by
  refine ⟨fun fs path name st h => ?_, fun fs path name h => ?_,
    fun fs path name st h hu => ?_⟩
  · unfold load_data
    rw [h]
  · unfold load_data
    rw [h]
  · unfold load_data
    rw [h]
    show st.users?.getD [] = []
    rw [hu]
    rfl

/-- Witness for C7 at a concrete stored file lacking the `users` key and a
concrete missing file. -/
theorem load_backfills_missing_keys_witness :
    load_data [("data/p_time_log.json", ⟨some "p", none⟩)] "data/p_time_log.json"
      "q" = ⟨"p", []⟩ ∧
    load_data [] "data/p_time_log.json" "q" = ⟨"q", []⟩ ∧
    (load_data [("data/p_time_log.json", ⟨some "p", none⟩)] "data/p_time_log.json"
      "q").users = [] :=
  ⟨load_backfills_missing_keys.1 _ "data/p_time_log.json" "q" ⟨some "p", none⟩ rfl,
    load_backfills_missing_keys.2.1 [] "data/p_time_log.json" "q" rfl,
    load_backfills_missing_keys.2.2 _ "data/p_time_log.json" "q" ⟨some "p", none⟩
      rfl rfl⟩

/-- Claim C9: `ensure_user` inserts `{sessions: [], active_session: null}` for a
username not yet present, leaves the log unchanged when the username exists, and
is therefore idempotent. -/
theorem ensure_user_idempotent :
    (∀ (log : ProjectLog) (u : String), hasUser log.users u = false →
      ensure_user log u = ⟨log.project, log.users ++ [(u, ⟨[], none⟩)]⟩) ∧
    (∀ (log : ProjectLog) (u : String), hasUser log.users u = true →
      ensure_user log u = log) ∧
    (∀ (log : ProjectLog) (u : String),
      ensure_user (ensure_user log u) u = ensure_user log u) := by
  refine ⟨fun log u h => ?_, fun log u h => ?_, fun log u => ?_⟩
  · simp [ensure_user, h]
  · simp [ensure_user, h]
  · cases h : hasUser log.users u with
    | true => simp [ensure_user, h]
    | false =>
      have h2 : hasUser (log.users ++ [(u, ⟨[], none⟩)]) u = true := by
        simp [hasUser]
      simp [ensure_user, h, h2]

/-- Witness for C9: inserting a fresh user and re-running `ensure_user` on a log
that already has the user. -/
theorem ensure_user_idempotent_witness :
    ensure_user ⟨"p", []⟩ "alice" = ⟨"p", [("alice", ⟨[], none⟩)]⟩ ∧
    ensure_user ⟨"p", [("alice", ⟨[], none⟩)]⟩ "alice" =
      ⟨"p", [("alice", ⟨[], none⟩)]⟩ ∧
    ensure_user (ensure_user ⟨"p", []⟩ "alice") "alice" =
      ensure_user ⟨"p", []⟩ "alice" :=
  ⟨ensure_user_idempotent.1 ⟨"p", []⟩ "alice" rfl,
    ensure_user_idempotent.2.1 ⟨"p", [("alice", ⟨[], none⟩)]⟩ "alice" (by decide),
    ensure_user_idempotent.2.2 ⟨"p", []⟩ "alice"⟩

/-! ## Report-window claims -/

theorem time_report_eq (now : DateTime) (days : Int) (u : UserRecord) :
    time_report now days u =
      (if u.sessions = [] then none
       else if u.sessions.filter (qualifies (now.toSeconds - days * 86400)) = [] then
         none
       else
         some
           ⟨(u.sessions.filter (qualifies (now.toSeconds - days * 86400))).length,
            totalMinutes (u.sessions.filter (qualifies (now.toSeconds - days * 86400))),
            pyRound2
              (totalMinutes (u.sessions.filter (qualifies (now.toSeconds - days * 86400)))
                / 60),
            u.sessions.filter (qualifies (now.toSeconds - days * 86400))⟩) := rfl

theorem mem_report_iff (now : DateTime) (days : Int) (u : UserRecord) (s : Session) :
    includedInReport now days u s ↔
      s ∈ u.sessions ∧ qualifies (now.toSeconds - days * 86400) s = true := by
  unfold includedInReport
  rw [time_report_eq]
  by_cases h0 : u.sessions = []
  · simp [h0]
  · rw [if_neg h0]
    by_cases h1 : u.sessions.filter (qualifies (now.toSeconds - days * 86400)) = []
    · rw [if_pos h1]
      constructor
      · rintro ⟨r, hr, _⟩
        cases hr
      · rintro ⟨hm, hq⟩
        have hs : s ∈ u.sessions.filter (qualifies (now.toSeconds - days * 86400)) :=
          List.mem_filter.2 ⟨hm, hq⟩
        rw [h1] at hs
        cases hs
    · rw [if_neg h1]
      constructor
      · rintro ⟨r, hr, hmem⟩
        injection hr with hr2
        subst hr2
        exact List.mem_filter.1 hmem
      · rintro ⟨hm, hq⟩
        exact ⟨_, rfl, List.mem_filter.2 ⟨hm, hq⟩⟩

/-- The end-timestamp choice exactly as claim C2 words it: the `end` field, falling
back to `start` only when `end` is absent. -/
def specEndStr (session : Session) : Option String :=
  match session.«end» with
  | some e => some e
  | none => session.start

/-- Session qualification as claim C2 states it: the timestamp obtained by parsing
`specEndStr` exists and is at least the cutoff `now - days` days. -/
def specIncludes (now : DateTime) (days : Int) (s : Session) : Prop :=
  ∃ str dt, specEndStr s = some str ∧ fromisoformat str = some dt ∧
    now.toSeconds - days * 86400 ≤ dt.toSeconds

/-- The end-timestamp choice of the amended claim: the `end` field, falling back to
`start` when `end` is absent or the (falsy) empty string. -/
def amendedEndStr (session : Session) : Option String :=
  if session.«end» = none ∨ session.«end» = some "" then session.start
  else session.«end»

theorem amendedEndStr_eq (s : Session) : amendedEndStr s = reportEndStr s := by
  unfold amendedEndStr reportEndStr
  cases he : s.«end» with
  | none => simp
  | some e =>
    by_cases h : e = "" <;> simp [h]

theorem qualifies_iff (c : Int) (s : Session) :
    qualifies c s = true ↔
      ∃ str dt, amendedEndStr s = some str ∧ fromisoformat str = some dt ∧
        c ≤ dt.toSeconds := by
  simp only [amendedEndStr_eq]
  unfold qualifies
  cases hes : reportEndStr s with
  | none => simp
  | some str =>
    cases hp : fromisoformat str with
    | none => simp [hp]
    | some dt => simp [hp, decide_eq_true_eq]

/-- Counterexample to claim C2 as stated, at an explicit input: a stored session
whose `end` field is present but the empty string and whose `start` is one day
old. The code's `session.get("end") or session.get("start")` falls back on the
falsy empty string, parses the recent `start`, and includes the session in the
7-day report; the claim's predicate parses the `end` field `""` (falling back
only when `end` is absent), fails to parse, and demands the session be excluded
— so the claimed equivalence is false here. -/
theorem report_empty_end_fallback_cex :
    ¬ (includedInReport ⟨2026, 10, 12, 12, 0, 0⟩ 7
        ⟨[⟨some "2026-10-11T12:00:00", some "", 10⟩], none⟩
        ⟨some "2026-10-11T12:00:00", some "", 10⟩ ↔
      ((⟨some "2026-10-11T12:00:00", some "", 10⟩ : Session) ∈
          (⟨[⟨some "2026-10-11T12:00:00", some "", 10⟩], none⟩ : UserRecord).sessions ∧
        specIncludes ⟨2026, 10, 12, 12, 0, 0⟩ 7
          ⟨some "2026-10-11T12:00:00", some "", 10⟩)) := by
  intro hiff
  have hin : includedInReport ⟨2026, 10, 12, 12, 0, 0⟩ 7
      ⟨[⟨some "2026-10-11T12:00:00", some "", 10⟩], none⟩
      ⟨some "2026-10-11T12:00:00", some "", 10⟩ :=
    ⟨⟨1, totalMinutes [⟨some "2026-10-11T12:00:00", some "", 10⟩],
        pyRound2 (totalMinutes [⟨some "2026-10-11T12:00:00", some "", 10⟩] / 60),
        [⟨some "2026-10-11T12:00:00", some "", 10⟩]⟩, rfl, List.Mem.head _⟩
  obtain ⟨str, dt, hstr, hdt, _⟩ := (hiff.1 hin).2
  simp only [specEndStr, Option.some.injEq] at hstr
  subst hstr
  rw [show fromisoformat "" = none from rfl] at hdt
  simp at hdt

/-- Claim C2 (amended): for every user record and window, the report includes a
stored session if and only if the session is stored and the timestamp obtained by
parsing its `end` field — falling back to `start` when `end` is absent **or the
empty string** (Python's falsy `or`) — is at least `now - days` days; a session
whose timestamp is missing or fails to parse is silently excluded rather than
raising an error. Concretely, given sessions ending 1, 8, and 30 days before
2026-10-12T12:00:00, the 7-day report contains only the 1-day-old session. -/
theorem report_window_amended :
    (∀ (now : DateTime) (days : Int) (u : UserRecord) (s : Session),
      includedInReport now days u s ↔
        s ∈ u.sessions ∧
          ∃ str dt, amendedEndStr s = some str ∧ fromisoformat str = some dt ∧
            now.toSeconds - days * 86400 ≤ dt.toSeconds) ∧
    time_report ⟨2026, 10, 12, 12, 0, 0⟩ 7
        ⟨[⟨some "2026-10-11T11:00:00", some "2026-10-11T12:00:00", 60⟩,
          ⟨some "2026-10-04T11:30:00", some "2026-10-04T12:00:00", 30⟩,
          ⟨some "2026-09-12T11:30:00", some "2026-09-12T12:00:00", 30⟩], none⟩ =
      some ⟨1, 60, 1,
        [⟨some "2026-10-11T11:00:00", some "2026-10-11T12:00:00", 60⟩]⟩ := by
  constructor
  · intro now days u s
    rw [mem_report_iff, qualifies_iff]
  · have e : time_report ⟨2026, 10, 12, 12, 0, 0⟩ 7
        ⟨[⟨some "2026-10-11T11:00:00", some "2026-10-11T12:00:00", 60⟩,
          ⟨some "2026-10-04T11:30:00", some "2026-10-04T12:00:00", 30⟩,
          ⟨some "2026-09-12T11:30:00", some "2026-09-12T12:00:00", 30⟩], none⟩ =
        some ⟨1,
          totalMinutes [⟨some "2026-10-11T11:00:00", some "2026-10-11T12:00:00", 60⟩],
          pyRound2
            (totalMinutes [⟨some "2026-10-11T11:00:00", some "2026-10-11T12:00:00", 60⟩]
              / 60),
          [⟨some "2026-10-11T11:00:00", some "2026-10-11T12:00:00", 60⟩]⟩ := rfl
    rw [e]
    simp only [totalMinutes, List.map_cons, List.map_nil, List.sum_cons, List.sum_nil]
    norm_num [pyRound2, roundHalfEven]

theorem qualifies_mono (c1 c2 : Int) (s : Session) (hc : c2 ≤ c1)
    (h : qualifies c1 s = true) : qualifies c2 s = true := by
  unfold qualifies at h ⊢
  cases hes : reportEndStr s with
  | none =>
    rw [hes] at h
    exact Bool.noConfusion (show false = true from h)
  | some str =>
    rw [hes] at h
    replace h : (match fromisoformat str with
      | none => false
      | some end_dt => decide (c1 ≤ end_dt.toSeconds)) = true := h
    show (match fromisoformat str with
      | none => false
      | some end_dt => decide (c2 ≤ end_dt.toSeconds)) = true
    cases hp : fromisoformat str with
    | none =>
      rw [hp] at h
      exact Bool.noConfusion (show false = true from h)
    | some dt =>
      rw [hp] at h
      replace h : decide (c1 ≤ dt.toSeconds) = true := h
      show decide (c2 ≤ dt.toSeconds) = true
      simp only [decide_eq_true_eq] at h ⊢
      omega

/-- Claim C10: report inclusion is monotone in the window size — at the same `now`,
every session included in the `d1`-day report is also included in the `d2`-day
report when `d1 ≤ d2` — and the report's session list preserves the storage
order: it is an ordered sublist of the stored sessions list. -/
theorem report_monotone_ordered :
    (∀ (now : DateTime) (d1 d2 : Int) (u : UserRecord) (s : Session), d1 ≤ d2 →
      includedInReport now d1 u s → includedInReport now d2 u s) ∧
    (∀ (now : DateTime) (d : Int) (u : UserRecord) (r : Report),
      time_report now d u = some r → r.sessions.Sublist u.sessions) := by
  constructor
  · intro now d1 d2 u s hd h1
    rw [mem_report_iff] at h1 ⊢
    refine ⟨h1.1, qualifies_mono _ _ _ (by omega) h1.2⟩
  · intro now d u r h
    rw [time_report_eq] at h
    by_cases h0 : u.sessions = []
    · rw [if_pos h0] at h
      cases h
    · rw [if_neg h0] at h
      by_cases h1 : u.sessions.filter (qualifies (now.toSeconds - d * 86400)) = []
      · rw [if_pos h1] at h
        cases h
      · rw [if_neg h1] at h
        injection h with h2
        subst h2
        exact List.filter_sublist _

/-- Witness for C10: a session one day old is in the 7-day report, hence by
monotonicity in the 30-day report; and a concrete report's session list is an
ordered sublist of the stored list. -/
theorem report_monotone_ordered_witness :
    includedInReport ⟨2026, 10, 12, 12, 0, 0⟩ 30
      ⟨[⟨some "2026-10-11T11:00:00", some "2026-10-11T12:00:00", 60⟩], none⟩
      ⟨some "2026-10-11T11:00:00", some "2026-10-11T12:00:00", 60⟩ ∧
    (⟨1, totalMinutes [⟨some "2026-10-11T11:00:00", some "2026-10-11T12:00:00", 60⟩],
        pyRound2
          (totalMinutes [⟨some "2026-10-11T11:00:00", some "2026-10-11T12:00:00", 60⟩]
            / 60),
        [⟨some "2026-10-11T11:00:00", some "2026-10-11T12:00:00", 60⟩]⟩ :
      Report).sessions.Sublist
      (⟨[⟨some "2026-10-11T11:00:00", some "2026-10-11T12:00:00", 60⟩], none⟩ :
        UserRecord).sessions :=
  ⟨report_monotone_ordered.1 ⟨2026, 10, 12, 12, 0, 0⟩ 7 30
      ⟨[⟨some "2026-10-11T11:00:00", some "2026-10-11T12:00:00", 60⟩], none⟩
      ⟨some "2026-10-11T11:00:00", some "2026-10-11T12:00:00", 60⟩ (by omega)
      ⟨⟨1, totalMinutes [⟨some "2026-10-11T11:00:00", some "2026-10-11T12:00:00", 60⟩],
          pyRound2
            (totalMinutes
                [⟨some "2026-10-11T11:00:00", some "2026-10-11T12:00:00", 60⟩] / 60),
          [⟨some "2026-10-11T11:00:00", some "2026-10-11T12:00:00", 60⟩]⟩,
        rfl, List.Mem.head _⟩,
    report_monotone_ordered.2 ⟨2026, 10, 12, 12, 0, 0⟩ 7
      ⟨[⟨some "2026-10-11T11:00:00", some "2026-10-11T12:00:00", 60⟩], none⟩
      ⟨1, totalMinutes [⟨some "2026-10-11T11:00:00", some "2026-10-11T12:00:00", 60⟩],
        pyRound2
          (totalMinutes [⟨some "2026-10-11T11:00:00", some "2026-10-11T12:00:00", 60⟩]
            / 60),
        [⟨some "2026-10-11T11:00:00", some "2026-10-11T12:00:00", 60⟩]⟩ rfl⟩
